import Mathlib

/-! Verification development for the illustration-to-depicts reconciliation bot.

The repository has two variants of the same pipeline:
* `src/illustrations_to_quickstatements.py` (the "item-claims" variant): walks
  family -> genus -> species categories on Commons and fills P18 / P13162
  claims on Wikidata taxon items;
* `commons_uploads/src/add_depicts.py` (the "depicts" variant): same walk, but
  writes P180 (depicts) claims on the per-file MediaInfo records.

Remote services (category listings, entity search, SPARQL claim reads, the
MediaInfo load, revision ids) are thin wrappers over HTTP collaborators; they
are modelled as fields of a `World` record giving the values those wrappers
return.  Everything the scripts compute from those values is embedded below,
function by function.
-/

namespace IllustrationBot

/-! Embedding of `urllib.parse.quote`.

The function percent-encodes the UTF-8 bytes of a string.  A byte is kept as-is
when it is an ASCII letter, a digit, one of `_ . - ~`, or a member of the
`safe` set (default `/`); any other byte becomes `%XX` with uppercase hex. -/

/-- UTF-8 encoding of a single character, as byte values. -/
def utf8Bytes (c : Char) : List Nat :=
  let n := c.toNat
  if n < 0x80 then [n]
  else if n < 0x800 then [0xC0 + n / 0x40, 0x80 + n % 0x40]
  else if n < 0x10000 then
    [0xE0 + n / 0x1000, 0x80 + (n / 0x40) % 0x40, 0x80 + n % 0x40]
  else
    [0xF0 + n / 0x40000, 0x80 + (n / 0x1000) % 0x40,
     0x80 + (n / 0x40) % 0x40, 0x80 + n % 0x40]

/-- Uppercase hexadecimal digit for a value below 16. -/
def hexDigitUpper (n : Nat) : Char :=
  if n < 10 then Char.ofNat (48 + n) else Char.ofNat (55 + n)

/-- Bytes `quote` never encodes: ASCII alphanumerics and `_ . - ~`. -/
def alwaysSafeByte (b : Nat) : Bool :=
  (65 ≤ b && b ≤ 90) || (97 ≤ b && b ≤ 122) || (48 ≤ b && b ≤ 57) ||
  b == 95 || b == 46 || b == 45 || b == 126

/-- Percent-encode one byte unless it is safe. -/
def quoteByte (safe : List Nat) (b : Nat) : List Char :=
  if alwaysSafeByte b || safe.contains b then [Char.ofNat b]
  else ['%', hexDigitUpper (b / 16), hexDigitUpper (b % 16)]

/-- Model of `urllib.parse.quote(s, safe)` over the UTF-8 bytes of `s`. -/
def pyQuote (safe : List Nat) (s : String) : String :=
  String.mk ((s.data.flatMap utf8Bytes).flatMap (quoteByte safe))

/-- Model of `urllib.parse.quote(s)` with the default safe set `"/"`. -/
def pyQuoteDefault (s : String) : String := pyQuote [47] s

/-! Statements, references and permalinks. -/

/-- Claim rank, as used by the depicts variant. -/
inductive Rank where
  | normal
  | preferred
deriving DecidableEq, Repr

/-- One property/value pair inside a reference block. -/
structure Snak where
  prop : String
  value : String
deriving DecidableEq, Repr

/-- One reference block (a `Reference` object of the wikibase library). -/
structure RefBlock where
  snaks : List Snak
deriving DecidableEq, Repr

/-- A statement built for writing: property, value, rank and its references
(the `References` container, a list of blocks). -/
structure Statement where
  prop : String
  value : String
  rank : Rank
  references : List RefBlock
deriving DecidableEq, Repr

/-- Model of `file_name.replace(" ", "_")` in `build_commons_file_permalink`. -/
def spacesToUnderscores (s : String) : String :=
  String.mk (s.data.map (fun c => if c = ' ' then '_' else c))

/-- Model of `build_commons_file_permalink` (`helper.py`): URL-encode the
underscored file name with `safe=":/"` and append the last revision id
(`get_commons_file_last_revision` is a remote lookup, supplied as `lastrev`). -/
def build_commons_file_permalink (lastrev : String → Nat) (fileName : String) : String :=
  "https://commons.wikimedia.org/w/index.php?title=" ++
    pyQuote [58, 47] (spacesToUnderscores fileName) ++
    "&oldid=" ++ toString (lastrev fileName)

/-- Model of `create_reference` (identical in both variants): one reference block with
P887 = Q131478853 ("inferred from Wikimedia Commons") and P4656 = the file
permalink. -/
def create_reference (lastrev : String → Nat) (fileName : String) : List RefBlock :=
  [⟨[⟨"P887", "Q131478853"⟩,
     ⟨"P4656", build_commons_file_permalink lastrev fileName⟩]⟩]

/-! Item-claims variant: the function `add_depicts_or_illustration_statements`. -/

/-- The single combined write `item.write(...)` issues for one Wikidata item. -/
structure ItemWriteCall where
  item : String
  statements : List Statement
  summary : String
deriving DecidableEq, Repr

/-- Result of `add_depicts_or_illustration_statements`: the chosen property,
the candidate file list after the dedup pass (the source mutates the caller's
list in place), and the write call, if one is issued. -/
structure ItemRecon where
  addProp : Option String
  files : List String
  write : Option ItemWriteCall
deriving DecidableEq, Repr

/-- Model of `add_depicts_or_illustration_statements`
(`illustrations_to_quickstatements.py`).
`existingP18` / `existingP13162` are the lists `get_existing_claims` returns
(URL-tail values, i.e. URL-encoded file names for media properties).
Steps, in source order: decide `add_prop` from emptiness of the two claim
lists; remove every candidate whose `urllib.parse.quote` form is already
present in either list (iterating over a copy while removing from the
original is equivalent to filtering); return early when no property was
chosen; otherwise build one claim per surviving file, each with
`create_reference`, and write once when at least one file survives. -/
def add_depicts_or_illustration_statements (lastrev : String → Nat)
    (existingP18 existingP13162 : List String)
    (wikidataItem : String) (files : List String) (snippet : String) : ItemRecon :=
  let addProp : Option String :=
    if existingP18.isEmpty && existingP13162.isEmpty then some "P18"
    else if !existingP18.isEmpty && existingP13162.isEmpty then some "P13162"
    else none
  let filtered := files.filter (fun f =>
    !(existingP18.contains (pyQuoteDefault f) ||
      existingP13162.contains (pyQuoteDefault f)))
  match addProp with
  | none => { addProp := none, files := filtered, write := none }
  | some p =>
      let stmts := filtered.map (fun f =>
        { prop := p, value := f, rank := Rank.normal,
          references := create_reference lastrev f : Statement })
      let summary := "Adding " ++ p ++ " claims inferred from Commons. " ++ snippet
      { addProp := some p, files := filtered,
        write := if filtered.isEmpty then none
                 else some { item := wikidataItem, statements := stmts, summary := summary } }

/-- Python `str.strip()`: drop leading and trailing whitespace (titles here
are ASCII; `Char.isWhitespace` covers the whitespace that occurs). -/
def pyStrip (s : String) : String :=
  String.mk (((s.data.dropWhile Char.isWhitespace).reverse.dropWhile
    Char.isWhitespace).reverse)

/-! Name extraction inside `process_family_category` (both variants).

The source tries three regexes in order with `re.match` (anchored at the
start only):
  1. `([^\\-]+) - botanical illustrations`
  2. `([^\\-]+) botanical illustrations`
  3. `([^\\-]+) \(illustrations\)`
The captured group accepts any character except a backslash or a hyphen and
is matched greedily with backtracking, so the engine returns the longest
group position at which the literal delimiter follows; nothing anchors the
end of the title.  The first regex to match wins and `match.group(1).strip()`
is the species name. -/

/-- Characters the capture group `[^\\-]` accepts. -/
def classOk (c : Char) : Bool := c ≠ '\\' && c ≠ '-'

/-- Find the largest split position `i ≤ bound`, `i ≥ 1`, such that the
delimiter is a prefix of `t.drop i`; this is the position greedy
backtracking settles on. -/
def findSplit (d t : List Char) : Nat → Option Nat
  | 0 => none
  | i + 1 => if d.isPrefixOf (t.drop (i + 1)) then some (i + 1)
             else findSplit d t i

/-- The group captured by `re.match(r"([^\\-]+)<delim>", t)`, if the regex
matches: the longest all-`classOk` prefix position followed by the
delimiter. -/
def greedyCapture (d t : List Char) : Option (List Char) :=
  match findSplit d t (t.takeWhile classOk).length with
  | some i => some (t.take i)
  | none => none

/-- Result of `re.match` of one of the three patterns against a title, returning the
captured (untrimmed) group. -/
def reMatchGroup (d : List Char) (s : String) : Option String :=
  (greedyCapture d s.data).map String.mk

def delimDashBotanical : List Char := (" - botanical illustrations").data

def delimBotanical : List Char := (" botanical illustrations").data

def delimIllustrations : List Char := (" (illustrations)").data

/-- The regex cascade of `process_family_category` (identical in both
variants): try the three patterns in order, first match wins, then
`.strip()` the captured group (Python strips Unicode whitespace; modelled by `pyStrip`).  `none` means the taxon category is
skipped. -/
def extractSpeciesName (taxon : String) : Option String :=
  match reMatchGroup delimDashBotanical taxon with
  | some g => some (pyStrip g)
  | none =>
    match reMatchGroup delimBotanical taxon with
    | some g => some (pyStrip g)
    | none =>
      match reMatchGroup delimIllustrations taxon with
      | some g => some (pyStrip g)
      | none => none

/-! Depicts variant: the function `add_depicts_claim`. -/

/-- Worker for `removeCategoryMarker`; the fuel bounds the number of scan
steps and each step consumes at least one character, so fuel equal to the
length of the list is always enough. -/
def removeCategoryMarkerGo : Nat → List Char → List Char
  | 0, l => l
  | _, [] => []
  | n + 1, c :: rest =>
      if ("Category:").data.isPrefixOf (c :: rest) then
        removeCategoryMarkerGo n (rest.drop 8)
      else
        c :: removeCategoryMarkerGo n rest

/-- Model of `s.replace("Category:", "")`: remove every (non-overlapping, left to
right) occurrence of the 9-character pattern `Category:`. -/
def removeCategoryMarker (l : List Char) : List Char :=
  removeCategoryMarkerGo l.length l

/-- Model of `category.split("-")[0].strip().replace("Category:", "")` in
`add_depicts_claim`: the part of the title before the first hyphen,
whitespace-trimmed, with all `Category:` markers removed. -/
def deriveTaxonName (category : String) : String :=
  String.mk (removeCategoryMarker
    (pyStrip (String.mk (category.data.takeWhile (fun c => c ≠ '-')))).data)

/-- The taxon ids resolved from a file's category titles
(`add_depicts_claim` lines building `list_of_taxonomic_qids`): resolve each
derived name and keep the successful lookups, in order. -/
def resolvedTaxa (qidOf : String → Option String) (categories : List String) :
    List String :=
  categories.filterMap (fun cat => qidOf (deriveTaxonName cat))

/-- Model of `add_depicts_claim` (`add_depicts.py`).  `existingP180` is the list of
item ids already present as P180 values on the media record
(`media.claims.get_json()["P180"]` main-snak ids).  The source deduplicates
the resolved ids with `list(set(...))` (order unspecified; modelled with
`List.dedup`, which preserves the distinct-id set and count), picks the rank
from the distinct count, then appends one P180 statement per id.  The scan
of existing P180 values inside the loop executes `continue` as its only
statement, which advances the *inner* loop and never skips the append, so
the existing claims have no effect on the output. -/
def add_depicts_claim (qidOf : String → Option String) (lastrev : String → Nat)
    (existingP180 : List String) (categories : List String)
    (fileName : String) : List Statement :=
  let qids := (resolvedTaxa qidOf categories).dedup
  let rank := if qids.length > 1 then Rank.normal else Rank.preferred
  qids.filterMap (fun q =>
    let _ := existingP180.filter (fun v => v == q)
    if q ≠ "" then
      some { prop := "P180", value := q, rank := rank,
             references := create_reference lastrev fileName : Statement }
    else none)

/-! Worlds, the ledger, and the two drivers. -/

/-- Outcome of `get_media_info_id` followed by `wbi.mediainfo.get` for one
file in `add_depicts_statements`: a loaded record (with its MediaInfo id and
its existing P180 main-snak item ids), a missing record (the library reports
the entity missing and a fresh empty one is created), or any other load
failure (logged and the file skipped). -/
inductive MediaLoad where
  | loaded (mid : String) (existingP180 : List String)
  | missing (mid : String)
  | failed
deriving DecidableEq, Repr

/-- The missing-entity branch creates a fresh record with no claims; the
failure branch skips the file. -/
def mediaLoadOutcome : MediaLoad → Option (String × List String)
  | .loaded mid existing => some (mid, existing)
  | .missing mid => some (mid, [])
  | .failed => none

/-- The values the remote collaborators return during a run.  `subcats` and
`filesIn` are the outputs of `get_subcategories` / `get_files_in_category`
(prefix-stripped titles); `qidOf` is `get_qid_from_taxon_name`;
`existingClaims item prop` is what `get_existing_claims` returns; `lastrev`
is `get_commons_file_last_revision`; `fileCategories` lists a file's
category titles (the API call inside `add_depicts_claim`; these titles keep
their `Category:` prefix); `mediaLoad` is the MediaInfo load outcome.  A
fixed world models "no change to remote state" across runs. -/
structure World where
  subcats : String → List String
  filesIn : String → List String
  qidOf : String → Option String
  existingClaims : String → String → List String
  lastrev : String → Nat
  fileCategories : String → List String
  mediaLoad : String → MediaLoad

/-- The persisted processed-entity ledger: one set per entity kind (the
item-claims variant uses species/genera/families, the depicts variant also
files), represented as lists with set insertion.  Every `add` in the source
is followed immediately by `save_processed_entities`, so threading one
state through the run is faithful to the load/save round-trips. -/
structure Ledger where
  species : List String
  genera : List String
  families : List String
  files : List String
deriving DecidableEq, Repr

/-- Python `set.add` on the list representation. -/
def addEnt (x : String) (l : List String) : List String :=
  if x ∈ l then l else x :: l

/-- Accumulated observable effects of a run: remote write calls (of type
`W`, one per `item.write` / `media.write`), entries routed to the review
YAML by `save_to_yaml`, and the ledger state. -/
structure RunOut (W : Type) where
  writes : List W
  review : List (String × List String)
  ledger : Ledger
deriving DecidableEq, Repr

/-- One `media.write(...)` call of the depicts variant. -/
structure MediaWriteCall where
  mediaId : String
  statements : List Statement
  summary : String
deriving DecidableEq, Repr

/-- Python substring containment, for `"Unidentified" in genus`. -/
def containsSub (needle : List Char) : List Char → Bool
  | [] => needle.isEmpty
  | c :: rest => needle.isPrefixOf (c :: rest) || containsSub needle rest

/-- The taxon-loop body of `process_family_category`
(`illustrations_to_quickstatements.py`): regex-extract the species name
(skip the category on no match), skip species already in the ledger, resolve
the Wikidata item (marking the species processed even when the lookup finds
nothing), then look at the category's files: 1 or 2 files reconcile claims
(at most one write), 3 or more route the category to the review sink, 0 do
nothing; finally mark the species processed. -/
def processTaxonSrc (w : World) (snippet : String)
    (acc : RunOut ItemWriteCall) (taxon : String) : RunOut ItemWriteCall :=
  match extractSpeciesName taxon with
  | none => acc
  | some name =>
    if name ∈ acc.ledger.species then acc
    else
      match w.qidOf name with
      | none =>
          { acc with ledger :=
              { acc.ledger with species := addEnt name acc.ledger.species } }
      | some item =>
          let files := w.filesIn taxon
          let n := files.length
          let acc1 :=
            if n = 1 ∨ n = 2 then
              let r := add_depicts_or_illustration_statements w.lastrev
                (w.existingClaims item "P18") (w.existingClaims item "P13162")
                item files snippet
              match r.write with
              | some wc => { acc with writes := acc.writes ++ [wc] }
              | none => acc
            else if n ≥ 3 then
              { acc with review := acc.review ++ [(taxon, files)] }
            else acc
          { acc1 with ledger :=
              { acc1.ledger with species := addEnt name acc1.ledger.species } }

/-- Model of `add_depicts_statements` (`add_depicts.py`): per file, skip files already
in the files ledger; a MediaInfo load failure skips the file without marking
it; otherwise build the depicts statements with `add_depicts_claim`, issue
one `media.write` when any statements were built, and mark the file
processed. -/
def add_depicts_statements (w : World) (snippet depictedItem : String) :
    List String → RunOut MediaWriteCall → RunOut MediaWriteCall
  | [], acc => acc
  | file :: rest, acc =>
      add_depicts_statements w snippet depictedItem rest
        (if file ∈ acc.ledger.files then acc
         else
           match mediaLoadOutcome (w.mediaLoad file) with
           | none => acc
           | some (mid, existing) =>
               let stmts := add_depicts_claim w.qidOf w.lastrev existing
                 (w.fileCategories file) file
               let acc1 :=
                 if stmts.isEmpty then acc
                 else { acc with writes := acc.writes ++
                   [{ mediaId := mid, statements := stmts,
                      summary := "Add depicts claim for " ++ depictedItem ++ " " ++ snippet }] }
               { acc1 with ledger :=
                   { acc1.ledger with files := addEnt file acc1.ledger.files } })

/-- The taxon-loop body of `process_family_category` (`add_depicts.py`):
identical to the item-claims variant up to the item resolution, but every
file list is handed to `add_depicts_statements` unconditionally — this
variant has no file-count threshold and no review routing. -/
def processTaxonDepicts (w : World) (snippet : String)
    (acc : RunOut MediaWriteCall) (taxon : String) : RunOut MediaWriteCall :=
  match extractSpeciesName taxon with
  | none => acc
  | some name =>
    if name ∈ acc.ledger.species then acc
    else
      match w.qidOf name with
      | none =>
          { acc with ledger :=
              { acc.ledger with species := addEnt name acc.ledger.species } }
      | some item =>
          let acc1 := add_depicts_statements w snippet item (w.filesIn taxon) acc
          { acc1 with ledger :=
              { acc1.ledger with species := addEnt name acc1.ledger.species } }

/-- The inner `for taxon in taxa` loop, generic in the per-taxon body so the
two variants (whose loops differ only in that body) share it. -/
def taxonLoop {W : Type} (procTaxon : RunOut W → String → RunOut W) :
    List String → RunOut W → RunOut W
  | [], acc => acc
  | t :: rest, acc => taxonLoop procTaxon rest (procTaxon acc t)

/-- The genus-loop body of `process_family_category` (textually identical in
both variants, so shared and instantiated with each variant's taxon body):
skip genera whose title contains `Unidentified` or that are already in the
ledger, process every taxon subcategory, then mark the genus processed. -/
def processGenus {W : Type} (procTaxon : RunOut W → String → RunOut W)
    (w : World) (acc : RunOut W) (genus : String) : RunOut W :=
  if containsSub ("Unidentified").data genus.data ∨ genus ∈ acc.ledger.genera then
    acc
  else
    let acc2 := taxonLoop procTaxon (w.subcats genus) acc
    { acc2 with ledger :=
        { acc2.ledger with genera := addEnt genus acc2.ledger.genera } }

/-- The `for genus in genera` loop of `process_family_category`. -/
def genusLoop {W : Type} (procTaxon : RunOut W → String → RunOut W)
    (w : World) : List String → RunOut W → RunOut W
  | [], acc => acc
  | genus :: rest, acc =>
      genusLoop procTaxon w rest (processGenus procTaxon w acc genus)

/-- Model of `process_family_category`: run the genus loop over the family's
subcategories. -/
def processFamilyCategory {W : Type} (procTaxon : RunOut W → String → RunOut W)
    (w : World) (acc : RunOut W) (category : String) : RunOut W :=
  genusLoop procTaxon w (w.subcats category) acc

/-- The `__main__` driver loop (textually identical in both variants): walk
the family categories, skip ones already in the families ledger, process the
rest and mark each processed immediately after. -/
def mainLoop {W : Type} (procFam : RunOut W → String → RunOut W) :
    List String → RunOut W → RunOut W
  | [], acc => acc
  | c :: rest, acc =>
      mainLoop procFam rest
        (if c ∈ acc.ledger.families then acc
         else
           let acc2 := procFam acc c
           { acc2 with ledger :=
               { acc2.ledger with families := addEnt c acc2.ledger.families } })

/-- The root category both `__main__` blocks start from. -/
def rootCategory : String := "Botanical illustrations by family"

/-- One complete run of the item-claims variant from a ledger state. -/
def runSrcMain (w : World) (snippet : String) (st0 : Ledger) :
    RunOut ItemWriteCall :=
  mainLoop (processFamilyCategory (processTaxonSrc w snippet) w)
    (w.subcats rootCategory) { writes := [], review := [], ledger := st0 }

/-- One complete run of the depicts variant from a ledger state. -/
def runDepictsMain (w : World) (snippet : String) (st0 : Ledger) :
    RunOut MediaWriteCall :=
  mainLoop (processFamilyCategory (processTaxonDepicts w snippet) w)
    (w.subcats rootCategory) { writes := [], review := [], ledger := st0 }

/-! Ledger loading and the taxon resolver, with their failure behavior. -/

/-- Entity kinds accepted by `load_processed_entities` (the depicts variant
adds `files`; any other string raises `ValueError`, which this enumeration
rules out).  The kind only selects the backing file path. -/
inductive EntityKind where
  | species
  | families
  | genera
  | files
deriving DecidableEq, Repr

/-- What reading the ledger file behind one entity kind yields: the path
does not exist; opening or `yaml.safe_load`-parsing the file raises (the
constructor carries the exception text); or parsing succeeds with `None`
(empty file) or a list of names. -/
inductive LedgerRead where
  | missingFile
  | readError (e : String)
  | content (data : Option (List String))
deriving DecidableEq, Repr

/-- Model of `load_processed_entities` (both variants): a missing path gives
the empty set without touching the file; otherwise the file is opened and
parsed with `yaml.safe_load` under no exception handler, so a read or parse
error propagates to the caller as a raised exception (`Except.error`); a
`None` or empty payload gives the empty set and a list gives `set(data)`
(modelled as `dedup` of the list). -/
def load_processed_entities (_entityType : EntityKind) :
    LedgerRead → Except String (List String)
  | .missingFile => .ok []
  | .readError e => .error e
  | .content none => .ok []
  | .content (some data) => .ok data.dedup

/-- Model of `fetch_wikidata_item` (`helper.py`, both variants).  The input
is the outcome of `requests.get(...).json()`: either a raised exception
(network failure, non-JSON body) or the decoded response's `search` list of
result ids (an absent key, as in an API error body, gives the empty list via
`response.get("search", [])`).  The function has no exception handler, so a
raised error propagates; otherwise the loop returns the first result's id,
or `None` when the list is empty. -/
def fetch_wikidata_item :
    Except String (List String) → Except String (Option String)
  | .error e => .error e
  | .ok searchIds => .ok searchIds.head?

/-! Spec-side characterization of the regex cascade, used to state the
name-extraction claim independently of the matcher implementation. -/

/-- Spec-side predicate: the pattern `([^\\-]+)<d>` matches title `t` under
`re.match` exactly when `t` splits as a nonempty group of characters from
the class, the literal delimiter `d`, and an arbitrary remainder. -/
def regexMatches (d : List Char) (t : String) : Prop :=
  ∃ g r, t.data = g ++ d ++ r ∧ g ≠ [] ∧ g.all classOk = true

/-! Concrete fixtures used by witnesses and counterexamples. -/

/-- A concrete taxon resolver: only the name `Rosa` resolves. -/
def qidOfEx : String → Option String :=
  fun n => if n = "Rosa" then some "Q123" else none

/-- A concrete revision-id lookup. -/
def lastrevEx : String → Nat := fun _ => 5

/-- The empty ledger (all four backing files missing). -/
def emptyLedger : Ledger :=
  { species := [], genera := [], families := [], files := [] }

/-- An empty accumulator for the item-claims variant. -/
def emptyOutItem : RunOut ItemWriteCall :=
  { writes := [], review := [], ledger := emptyLedger }

/-- An empty accumulator for the depicts variant. -/
def emptyOutMedia : RunOut MediaWriteCall :=
  { writes := [], review := [], ledger := emptyLedger }

/-- A concrete world: one family (`Rosaceae`), one genus (`Rosa`), one leaf
category with exactly three files; every file sits in the category
`Category:Rosa - botanical illustrations` and its MediaInfo record already
carries a P180 claim for `Q123`. -/
def worldEx : World :=
  { subcats := fun c =>
      if c = rootCategory then ["Rosaceae"]
      else if c = "Rosaceae" then ["Rosa"]
      else if c = "Rosa" then ["Rosa - botanical illustrations"]
      else []
  , filesIn := fun c =>
      if c = "Rosa - botanical illustrations" then ["R1.jpg", "R2.jpg", "R3.jpg"]
      else []
  , qidOf := qidOfEx
  , existingClaims := fun _ _ => []
  , lastrev := lastrevEx
  , fileCategories := fun _ => ["Category:Rosa - botanical illustrations"]
  , mediaLoad := fun _ => MediaLoad.loaded "M101" ["Q123"] }

/-! Shared helper lemmas. -/

theorem addEnt_mem_self (x : String) (l : List String) : x ∈ addEnt x l := by
  unfold addEnt
  split
  · assumption
  · exact List.mem_cons_self x l

theorem addEnt_mem_of_mem {y : String} {l : List String} (x : String)
    (h : y ∈ l) : y ∈ addEnt x l := by
  unfold addEnt
  split
  · exact h
  · exact List.mem_cons_of_mem x h

/-- Membership in the dedup filter of `add_depicts_or_illustration_statements`:
a candidate survives exactly when its URL-encoded form is absent from both
existing-claim lists. -/
theorem mem_dedup_filter (p18 p13162 files : List String) (f : String) :
    (f ∈ files.filter (fun f =>
      !(p18.contains (pyQuoteDefault f) || p13162.contains (pyQuoteDefault f)))) ↔
    (f ∈ files ∧ pyQuoteDefault f ∉ p18 ∧ pyQuoteDefault f ∉ p13162) := by
  simp [List.mem_filter, List.contains, List.elem_iff]

/-- Claim C1: property-fill policy of the item-claims reconciliation.  With
no existing P18 value and no existing P13162 value the engine chooses P18;
with existing P18 values only, it chooses P13162; with both present it
chooses no property and issues no write. -/
theorem claim_C1_property_fill_policy (lastrev : String → Nat)
    (p18 p13162 : List String) (item : String) (files : List String)
    (snippet : String) :
    (p18 = [] → p13162 = [] →
      (add_depicts_or_illustration_statements lastrev p18 p13162 item files snippet).addProp
        = some "P18") ∧
    (p18 ≠ [] → p13162 = [] →
      (add_depicts_or_illustration_statements lastrev p18 p13162 item files snippet).addProp
        = some "P13162") ∧
    (p18 ≠ [] → p13162 ≠ [] →
      (add_depicts_or_illustration_statements lastrev p18 p13162 item files snippet).addProp
        = none ∧
      (add_depicts_or_illustration_statements lastrev p18 p13162 item files snippet).write
        = none) := by
  refine ⟨?_, ?_, ?_⟩
  · rintro rfl rfl
    rfl
  · intro h1 h2
    subst h2
    cases p18 with
    | nil => exact absurd rfl h1
    | cons a t => rfl
  · intro h1 h2
    cases p18 with
    | nil => exact absurd rfl h1
    | cons a t =>
      cases p13162 with
      | nil => exact absurd rfl h2
      | cons b u => exact ⟨rfl, rfl⟩

/-- Witness for C1 at concrete inputs covering all three cases. -/
theorem claim_C1_property_fill_policy_witness :
    (add_depicts_or_illustration_statements lastrevEx [] [] "Q1" ["A.jpg"] "s").addProp
      = some "P18" ∧
    (add_depicts_or_illustration_statements lastrevEx ["x"] [] "Q1" ["A.jpg"] "s").addProp
      = some "P13162" ∧
    ((add_depicts_or_illustration_statements lastrevEx ["x"] ["y"] "Q1" ["A.jpg"] "s").addProp
      = none ∧
     (add_depicts_or_illustration_statements lastrevEx ["x"] ["y"] "Q1" ["A.jpg"] "s").write
      = none) :=
  ⟨(claim_C1_property_fill_policy lastrevEx [] [] "Q1" ["A.jpg"] "s").1 rfl rfl,
   (claim_C1_property_fill_policy lastrevEx ["x"] [] "Q1" ["A.jpg"] "s").2.1
     (by simp) rfl,
   (claim_C1_property_fill_policy lastrevEx ["x"] ["y"] "Q1" ["A.jpg"] "s").2.2
     (by simp) (by simp)⟩

/-- Claim C10: when only the secondary property P13162 has existing values,
the engine selects no property and issues no write, and the dedup filtering
of the candidate list still runs (the returned list is the filtered one). -/
theorem claim_C10_secondary_only_no_write (lastrev : String → Nat)
    (p18 p13162 : List String) (item : String) (files : List String)
    (snippet : String) (h1 : p18 = []) (h2 : p13162 ≠ []) :
    (add_depicts_or_illustration_statements lastrev p18 p13162 item files snippet).addProp
      = none ∧
    (add_depicts_or_illustration_statements lastrev p18 p13162 item files snippet).write
      = none ∧
    (∀ f, f ∈ (add_depicts_or_illustration_statements lastrev p18 p13162 item files snippet).files ↔
      (f ∈ files ∧ pyQuoteDefault f ∉ p18 ∧ pyQuoteDefault f ∉ p13162)) := by
  subst h1
  cases p13162 with
  | nil => exact absurd rfl h2
  | cons b u =>
    refine ⟨rfl, rfl, ?_⟩
    intro f
    exact mem_dedup_filter [] (b :: u) files f

/-- Witness for C10: with P13162 filled and P18 empty, nothing is chosen or
written, and the already-claimed candidate is filtered while the other
survives. -/
theorem claim_C10_secondary_only_no_write_witness :
    (add_depicts_or_illustration_statements lastrevEx []
      ["A%20B.jpg"] "Q1" ["A B.jpg", "C.jpg"] "s").addProp = none ∧
    (add_depicts_or_illustration_statements lastrevEx []
      ["A%20B.jpg"] "Q1" ["A B.jpg", "C.jpg"] "s").write = none ∧
    ("C.jpg" ∈ (add_depicts_or_illustration_statements lastrevEx []
      ["A%20B.jpg"] "Q1" ["A B.jpg", "C.jpg"] "s").files ∧
     "A B.jpg" ∉ (add_depicts_or_illustration_statements lastrevEx []
      ["A%20B.jpg"] "Q1" ["A B.jpg", "C.jpg"] "s").files) := by
  have h := claim_C10_secondary_only_no_write lastrevEx [] ["A%20B.jpg"] "Q1"
    ["A B.jpg", "C.jpg"] "s" rfl (by simp)
  refine ⟨h.1, h.2.1, (h.2.2 "C.jpg").mpr (by decide), ?_⟩
  intro hmem
  have := (h.2.2 "A B.jpg").mp hmem
  revert this
  decide

/-- Claim C2, settled against the code: the item-claims variant does exclude
every candidate whose URL-encoded name is already among the fetched existing
claims while other candidates proceed (first conjunct); but in the depicts
variant the output of `add_depicts_claim` is entirely independent of the
existing P180 claims (second conjunct) because the scan over
`p180_values` has a lone `continue` that advances the inner loop and never
skips the append, and at the concrete failing input a P180 = Q123 statement
is built (third conjunct) and written (fourth conjunct) even though Q123 is
already on the media record. -/
theorem claim_C2_dedup_before_write :
    (∀ (lastrev : String → Nat) (p18 p13162 : List String) (item : String)
       (files : List String) (snippet f : String),
      f ∈ (add_depicts_or_illustration_statements lastrev p18 p13162 item files snippet).files ↔
        (f ∈ files ∧ pyQuoteDefault f ∉ p18 ∧ pyQuoteDefault f ∉ p13162)) ∧
    (∀ (qidOf : String → Option String) (lastrev : String → Nat)
       (existingP180 categories : List String) (fileName : String),
      add_depicts_claim qidOf lastrev existingP180 categories fileName =
        add_depicts_claim qidOf lastrev [] categories fileName) ∧
    ((add_depicts_claim qidOfEx lastrevEx ["Q123"]
        ["Category:Rosa - botanical illustrations"] "R1.jpg").map Statement.value
      = ["Q123"] ∧
     (add_depicts_statements worldEx "s" "Q123" ["R1.jpg"] emptyOutMedia).writes.length
      = 1) := by
  refine ⟨?_, ?_, ?_, ?_⟩
  · intro lastrev p18 p13162 item files snippet f
    have hfiles : (add_depicts_or_illustration_statements lastrev p18 p13162 item files snippet).files
        = files.filter (fun f =>
            !(p18.contains (pyQuoteDefault f) || p13162.contains (pyQuoteDefault f))) := by
      cases p18 <;> cases p13162 <;> rfl
    rw [hfiles]
    exact mem_dedup_filter p18 p13162 files f
  · intro qidOf lastrev existingP180 categories fileName
    rfl
  · decide
  · decide

/-- Claim C6: rank policy of the depicts variant.  When exactly one distinct
taxon id is resolved from the file's categories every built claim has rank
preferred; with two or more distinct ids every built claim has rank
normal. -/
theorem claim_C6_rank_policy (qidOf : String → Option String)
    (lastrev : String → Nat) (existingP180 categories : List String)
    (fileName : String) :
    ((resolvedTaxa qidOf categories).dedup.length = 1 →
      ∀ s ∈ add_depicts_claim qidOf lastrev existingP180 categories fileName,
        s.rank = Rank.preferred) ∧
    (2 ≤ (resolvedTaxa qidOf categories).dedup.length →
      ∀ s ∈ add_depicts_claim qidOf lastrev existingP180 categories fileName,
        s.rank = Rank.normal) := by
  constructor
  · intro h s hs
    simp only [add_depicts_claim, List.mem_filterMap] at hs
    obtain ⟨q, hq, heq⟩ := hs
    by_cases hq0 : q ≠ ""
    · rw [if_pos hq0] at heq
      cases heq
      simp [h]
    · rw [if_neg hq0] at heq
      cases heq
  · intro h s hs
    simp only [add_depicts_claim, List.mem_filterMap] at hs
    obtain ⟨q, hq, heq⟩ := hs
    by_cases hq0 : q ≠ ""
    · rw [if_pos hq0] at heq
      cases heq
      have hgt : (resolvedTaxa qidOf categories).dedup.length > 1 := by omega
      simp [hgt]
    · rw [if_neg hq0] at heq
      cases heq

/-- Witness for C6 at a concrete input with exactly one resolvable taxon. -/
theorem claim_C6_rank_policy_witness :
    (Statement.mk "P180" "Q123" Rank.preferred
      (create_reference lastrevEx "R1.jpg")).rank = Rank.preferred :=
  (claim_C6_rank_policy qidOfEx lastrevEx []
      ["Category:Rosa - botanical illustrations"] "R1.jpg").1
    (by decide)
    (Statement.mk "P180" "Q123" Rank.preferred (create_reference lastrevEx "R1.jpg"))
    (by decide)

/-- Claim C7: every claim either engine constructs for writing carries
exactly one reference block containing the fixed provenance snak
P887 = Q131478853 and the P4656 permalink of the file inspected; no
statement reaches a write call without these references. -/
theorem claim_C7_reference_invariant :
    (∀ (lastrev : String → Nat) (f : String),
      (create_reference lastrev f).length = 1) ∧
    (∀ (lastrev : String → Nat) (f : String),
      ∀ rb ∈ create_reference lastrev f,
        (⟨"P887", "Q131478853"⟩ : Snak) ∈ rb.snaks ∧
        (⟨"P4656", build_commons_file_permalink lastrev f⟩ : Snak) ∈ rb.snaks) ∧
    (∀ (lastrev : String → Nat) (p18 p13162 : List String) (item : String)
       (files : List String) (snippet : String) (wc : ItemWriteCall),
      (add_depicts_or_illustration_statements lastrev p18 p13162 item files snippet).write
          = some wc →
      ∀ s ∈ wc.statements, s.references = create_reference lastrev s.value) ∧
    (∀ (qidOf : String → Option String) (lastrev : String → Nat)
       (existingP180 categories : List String) (fileName : String),
      ∀ s ∈ add_depicts_claim qidOf lastrev existingP180 categories fileName,
        s.references = create_reference lastrev fileName) := by
  refine ⟨?_, ?_, ?_, ?_⟩
  · intro lastrev f
    rfl
  · intro lastrev f rb hrb
    simp only [create_reference, List.mem_singleton] at hrb
    subst hrb
    constructor <;> simp
  · intro lastrev p18 p13162 item files snippet wc hw s hs
    simp only [add_depicts_or_illustration_statements] at hw
    split at hw
    · simp at hw
    · dsimp only at hw
      split at hw
      · simp at hw
      · cases hw
        simp only [List.mem_map] at hs
        obtain ⟨f, hf, rfl⟩ := hs
        rfl
  · intro qidOf lastrev existingP180 categories fileName s hs
    simp only [add_depicts_claim, List.mem_filterMap] at hs
    obtain ⟨q, hq, heq⟩ := hs
    by_cases hq0 : q ≠ ""
    · rw [if_pos hq0] at heq
      cases heq
      rfl
    · rw [if_neg hq0] at heq
      cases heq

/-- Witness for C7 on a concretely built depicts statement. -/
theorem claim_C7_reference_invariant_witness :
    (Statement.mk "P180" "Q123" Rank.preferred
      (create_reference lastrevEx "R1.jpg")).references
      = create_reference lastrevEx "R1.jpg" :=
  claim_C7_reference_invariant.2.2.2 qidOfEx lastrevEx []
    ["Category:Rosa - botanical illustrations"] "R1.jpg"
    (Statement.mk "P180" "Q123" Rank.preferred (create_reference lastrevEx "R1.jpg"))
    (by decide)

/-! Lemmas about the greedy matcher, leading to the name-extraction claim. -/

theorem isPrefixOf_iff_append (a b : List Char) :
    a.isPrefixOf b = true ↔ ∃ r, b = a ++ r := by
  induction a generalizing b with
  | nil => simp
  | cons c a ih =>
    cases b with
    | nil => simp
    | cons d b =>
      simp only [List.isPrefixOf_cons₂, Bool.and_eq_true, beq_iff_eq, ih,
        List.cons_append, List.cons.injEq]
      constructor
      · rintro ⟨rfl, r, rfl⟩
        exact ⟨r, rfl, rfl⟩
      · rintro ⟨r, rfl, rfl⟩
        exact ⟨rfl, r, rfl⟩

theorem findSplit_some {d t : List Char} {n i : Nat}
    (h : findSplit d t n = some i) :
    1 ≤ i ∧ i ≤ n ∧ d.isPrefixOf (t.drop i) = true := by
  induction n with
  | zero => simp [findSplit] at h
  | succ m ih =>
    simp only [findSplit] at h
    by_cases hp : d.isPrefixOf (t.drop (m + 1)) = true
    · rw [if_pos hp] at h
      cases h
      exact ⟨by omega, by omega, hp⟩
    · rw [if_neg hp] at h
      obtain ⟨h1, h2, h3⟩ := ih h
      exact ⟨h1, by omega, h3⟩

theorem findSplit_none {d t : List Char} {n : Nat}
    (h : findSplit d t n = none) :
    ∀ j, 1 ≤ j → j ≤ n → ¬ d.isPrefixOf (t.drop j) = true := by
  induction n with
  | zero =>
    intro j h1 h2 _
    omega
  | succ m ih =>
    simp only [findSplit] at h
    by_cases hp : d.isPrefixOf (t.drop (m + 1)) = true
    · rw [if_pos hp] at h
      cases h
    · rw [if_neg hp] at h
      intro j h1 h2 hj
      rcases Nat.eq_or_lt_of_le h2 with heq | hlt
      · exact hp (heq ▸ hj)
      · exact ih h j h1 (by omega) hj

theorem all_of_take_le_takeWhile (p : Char → Bool) (t : List Char) (i : Nat)
    (h : i ≤ (t.takeWhile p).length) : (t.take i).all p = true := by
  induction t generalizing i with
  | nil => simp
  | cons c rest ih =>
    cases i with
    | zero => simp
    | succ j =>
      rw [List.takeWhile_cons] at h
      by_cases hc : p c = true
      · rw [if_pos hc] at h
        simp only [List.length_cons] at h
        simp only [List.take_succ_cons, List.all_cons, hc, Bool.true_and]
        exact ih j (by omega)
      · rw [if_neg hc] at h
        simp at h

theorem le_takeWhile_length_append (p : Char → Bool) (g x : List Char)
    (hall : g.all p = true) : g.length ≤ ((g ++ x).takeWhile p).length := by
  induction g with
  | nil => simp
  | cons c rest ih =>
    simp only [List.all_cons, Bool.and_eq_true] at hall
    rw [List.cons_append, List.takeWhile_cons, if_pos hall.1]
    simp only [List.length_cons]
    have := ih hall.2
    omega

theorem greedyCapture_sound {d t g : List Char}
    (h : greedyCapture d t = some g) :
    g ≠ [] ∧ g.all classOk = true ∧ ∃ r, t = g ++ d ++ r := by
  unfold greedyCapture at h
  cases hf : findSplit d t (t.takeWhile classOk).length with
  | none =>
    rw [hf] at h
    cases h
  | some i =>
    rw [hf] at h
    cases h
    obtain ⟨h1, h2, h3⟩ := findSplit_some hf
    have hlen : (t.takeWhile classOk).length ≤ t.length := by
      have hsplit : t.takeWhile classOk ++ t.dropWhile classOk = t :=
        List.takeWhile_append_dropWhile classOk t
      have : (t.takeWhile classOk).length + (t.dropWhile classOk).length
          = t.length := by
        rw [← List.length_append, hsplit]
      omega
    refine ⟨?_, all_of_take_le_takeWhile classOk t i h2, ?_⟩
    · intro hnil
      have hlen2 : (t.take i).length = min i t.length := List.length_take i t
      rw [hnil] at hlen2
      simp at hlen2
      omega
    · obtain ⟨r, hr⟩ := (isPrefixOf_iff_append d (t.drop i)).mp h3
      refine ⟨r, ?_⟩
      conv_lhs => rw [← List.take_append_drop i t]
      rw [hr, List.append_assoc]

theorem greedyCapture_complete {d t : List Char}
    (h : ∃ g r, t = g ++ d ++ r ∧ g ≠ [] ∧ g.all classOk = true) :
    ∃ g, greedyCapture d t = some g := by
  obtain ⟨g, r, rfl, hg, hall⟩ := h
  have hlen : g.length ≤ ((g ++ d ++ r).takeWhile classOk).length := by
    have := le_takeWhile_length_append classOk g (d ++ r) hall
    rwa [← List.append_assoc] at this
  have hpref : d.isPrefixOf ((g ++ d ++ r).drop g.length) = true := by
    rw [List.append_assoc, List.drop_left]
    exact (isPrefixOf_iff_append d (d ++ r)).mpr ⟨r, rfl⟩
  unfold greedyCapture
  cases hf : findSplit d (g ++ d ++ r) ((g ++ d ++ r).takeWhile classOk).length with
  | some i => exact ⟨_, rfl⟩
  | none =>
    have hglen : 1 ≤ g.length := by
      cases g with
      | nil => exact absurd rfl hg
      | cons c rest => simp
    exact absurd hpref (findSplit_none hf g.length hglen hlen)

theorem reMatchGroup_sound {d : List Char} {t g : String}
    (h : reMatchGroup d t = some g) :
    g.data ≠ [] ∧ g.data.all classOk = true ∧ ∃ r, t.data = g.data ++ d ++ r := by
  unfold reMatchGroup at h
  cases hg : greedyCapture d t.data with
  | none =>
    rw [hg] at h
    cases h
  | some l =>
    rw [hg] at h
    cases h
    exact greedyCapture_sound hg

theorem reMatchGroup_none_iff {d : List Char} {t : String} :
    reMatchGroup d t = none ↔ ¬ regexMatches d t := by
  constructor
  · intro h hm
    obtain ⟨g0, hg0⟩ := greedyCapture_complete hm
    unfold reMatchGroup at h
    rw [hg0] at h
    cases h
  · intro hm
    unfold reMatchGroup
    cases hg : greedyCapture d t.data with
    | none => rfl
    | some l =>
      obtain ⟨h1, h2, r, h3⟩ := greedyCapture_sound hg
      exact absurd ⟨l, r, h3, h1, h2⟩ hm

/-- Claim C3: the extractor tries the three patterns in the fixed fallback
order, the first to match wins, the captured name excludes the delimiter
(the title decomposes as captured group, then delimiter, then remainder)
and is whitespace-trimmed, and a title matching none of the patterns yields
no match; in particular the four listed examples behave as stated. -/
theorem claim_C3_name_extraction :
    extractSpeciesName "Rosa - botanical illustrations" = some "Rosa" ∧
    extractSpeciesName "Rosa botanical illustrations" = some "Rosa" ∧
    extractSpeciesName "Rosa (illustrations)" = some "Rosa" ∧
    extractSpeciesName "Rosa illustrated" = none ∧
    (∀ t : String, extractSpeciesName t = none ↔
      (¬ regexMatches delimDashBotanical t ∧ ¬ regexMatches delimBotanical t ∧
       ¬ regexMatches delimIllustrations t)) ∧
    (∀ t g, reMatchGroup delimDashBotanical t = some g →
      extractSpeciesName t = some (pyStrip g) ∧ g.data ≠ [] ∧
      g.data.all classOk = true ∧
      ∃ r, t.data = g.data ++ delimDashBotanical ++ r) ∧
    (∀ t g, reMatchGroup delimDashBotanical t = none →
      reMatchGroup delimBotanical t = some g →
      extractSpeciesName t = some (pyStrip g) ∧ g.data ≠ [] ∧
      g.data.all classOk = true ∧
      ∃ r, t.data = g.data ++ delimBotanical ++ r) ∧
    (∀ t g, reMatchGroup delimDashBotanical t = none →
      reMatchGroup delimBotanical t = none →
      reMatchGroup delimIllustrations t = some g →
      extractSpeciesName t = some (pyStrip g) ∧ g.data ≠ [] ∧
      g.data.all classOk = true ∧
      ∃ r, t.data = g.data ++ delimIllustrations ++ r) := by
  refine ⟨by decide, by decide, by decide, by decide, ?_, ?_, ?_, ?_⟩
  · intro t
    constructor
    · intro h
      cases h1 : reMatchGroup delimDashBotanical t with
      | some g => simp [extractSpeciesName, h1] at h
      | none =>
        cases h2 : reMatchGroup delimBotanical t with
        | some g => simp [extractSpeciesName, h1, h2] at h
        | none =>
          cases h3 : reMatchGroup delimIllustrations t with
          | some g => simp [extractSpeciesName, h1, h2, h3] at h
          | none =>
            exact ⟨reMatchGroup_none_iff.mp h1, reMatchGroup_none_iff.mp h2,
              reMatchGroup_none_iff.mp h3⟩
    · rintro ⟨m1, m2, m3⟩
      have h1 := reMatchGroup_none_iff.mpr m1
      have h2 := reMatchGroup_none_iff.mpr m2
      have h3 := reMatchGroup_none_iff.mpr m3
      simp [extractSpeciesName, h1, h2, h3]
  · intro t g h
    obtain ⟨h1, h2, h3⟩ := reMatchGroup_sound h
    exact ⟨by simp [extractSpeciesName, h], h1, h2, h3⟩
  · intro t g h0 h
    obtain ⟨h1, h2, h3⟩ := reMatchGroup_sound h
    exact ⟨by simp [extractSpeciesName, h0, h], h1, h2, h3⟩
  · intro t g h0 h0b h
    obtain ⟨h1, h2, h3⟩ := reMatchGroup_sound h
    exact ⟨by simp [extractSpeciesName, h0, h0b, h], h1, h2, h3⟩

/-- Witness for C3: the first pattern matches the first example title with
captured group `Rosa`, and the extractor returns its trimmed form. -/
theorem claim_C3_name_extraction_witness :
    extractSpeciesName "Rosa - botanical illustrations" = some (pyStrip "Rosa") :=
  (claim_C3_name_extraction.2.2.2.2.2.1 "Rosa - botanical illustrations" "Rosa"
    (by decide)).1

/-! Ledger-monotonicity lemmas for the idempotent-resume claim. -/

theorem processTaxonSrc_families (w : World) (s : String)
    (acc : RunOut ItemWriteCall) (t : String) :
    (processTaxonSrc w s acc t).ledger.families = acc.ledger.families := by
  unfold processTaxonSrc
  split
  · rfl
  · split
    · rfl
    · split
      · rfl
      · dsimp only
        split
        · split <;> rfl
        · split <;> rfl

theorem add_depicts_statements_families (w : World) (s item : String) :
    ∀ (files : List String) (acc : RunOut MediaWriteCall),
      (add_depicts_statements w s item files acc).ledger.families
        = acc.ledger.families := by
  intro files
  induction files with
  | nil =>
    intro acc
    rfl
  | cons f rest ih =>
    intro acc
    rw [add_depicts_statements, ih]
    split
    · rfl
    · split
      · rfl
      · dsimp only
        split <;> rfl

theorem processTaxonDepicts_families (w : World) (s : String)
    (acc : RunOut MediaWriteCall) (t : String) :
    (processTaxonDepicts w s acc t).ledger.families = acc.ledger.families := by
  unfold processTaxonDepicts
  repeat' split
  all_goals first
    | rfl
    | (dsimp only
       rw [add_depicts_statements_families])

theorem taxonLoop_families {W : Type} (procTaxon : RunOut W → String → RunOut W)
    (hT : ∀ acc t, (procTaxon acc t).ledger.families = acc.ledger.families) :
    ∀ (l : List String) (acc : RunOut W),
      (taxonLoop procTaxon l acc).ledger.families = acc.ledger.families := by
  intro l
  induction l with
  | nil =>
    intro acc
    rfl
  | cons t rest ih =>
    intro acc
    rw [taxonLoop, ih, hT]

theorem processGenus_families {W : Type} (procTaxon : RunOut W → String → RunOut W)
    (hT : ∀ acc t, (procTaxon acc t).ledger.families = acc.ledger.families)
    (w : World) (acc : RunOut W) (genus : String) :
    (processGenus procTaxon w acc genus).ledger.families = acc.ledger.families := by
  unfold processGenus
  split
  · rfl
  · dsimp only
    rw [taxonLoop_families procTaxon hT]

theorem genusLoop_families {W : Type} (procTaxon : RunOut W → String → RunOut W)
    (hT : ∀ acc t, (procTaxon acc t).ledger.families = acc.ledger.families)
    (w : World) :
    ∀ (l : List String) (acc : RunOut W),
      (genusLoop procTaxon w l acc).ledger.families = acc.ledger.families := by
  intro l
  induction l with
  | nil =>
    intro acc
    rfl
  | cons genus rest ih =>
    intro acc
    rw [genusLoop, ih, processGenus_families procTaxon hT]

theorem mainLoop_mem_families {W : Type} (procFam : RunOut W → String → RunOut W)
    (hF : ∀ acc c, (procFam acc c).ledger.families = acc.ledger.families) :
    ∀ (cats : List String) (acc : RunOut W) (x : String),
      x ∈ acc.ledger.families → x ∈ (mainLoop procFam cats acc).ledger.families := by
  intro cats
  induction cats with
  | nil =>
    intro acc x hx
    exact hx
  | cons c rest ih =>
    intro acc x hx
    rw [mainLoop]
    apply ih
    split
    · exact hx
    · dsimp only
      rw [hF]
      exact addEnt_mem_of_mem c hx

theorem mainLoop_covers {W : Type} (procFam : RunOut W → String → RunOut W)
    (hF : ∀ acc c, (procFam acc c).ledger.families = acc.ledger.families) :
    ∀ (cats : List String) (acc : RunOut W) (c : String),
      c ∈ cats → c ∈ (mainLoop procFam cats acc).ledger.families := by
  intro cats
  induction cats with
  | nil =>
    intro acc c hc
    cases hc
  | cons a rest ih =>
    intro acc c hc
    rw [mainLoop]
    rcases List.mem_cons.mp hc with rfl | hc2
    · apply mainLoop_mem_families procFam hF
      split
      · assumption
      · dsimp only
        rw [hF]
        exact addEnt_mem_self c _
    · exact ih _ c hc2

theorem mainLoop_skip {W : Type} (procFam : RunOut W → String → RunOut W) :
    ∀ (cats : List String) (acc : RunOut W),
      (∀ c ∈ cats, c ∈ acc.ledger.families) → mainLoop procFam cats acc = acc := by
  intro cats
  induction cats with
  | nil =>
    intro acc _
    rfl
  | cons a rest ih =>
    intro acc h
    rw [mainLoop, if_pos (h a (List.mem_cons_self a rest))]
    exact ih acc (fun c hc => h c (List.mem_cons_of_mem a hc))

/-- Claim C4: idempotent resume.  With an unchanged world, a second complete
run started from the ledger a first complete run produced issues zero
remote writes (and routes nothing to review), in both variants; the
mechanism is that every family category is in the families ledger after the
first run, so the driver skips it before any per-taxon work begins. -/
theorem claim_C4_idempotent_resume (w : World) (s1 s2 : String) (L0 : Ledger) :
    (runSrcMain w s2 (runSrcMain w s1 L0).ledger).writes = [] ∧
    (runSrcMain w s2 (runSrcMain w s1 L0).ledger).review = [] ∧
    (∀ c ∈ w.subcats rootCategory, c ∈ (runSrcMain w s1 L0).ledger.families) ∧
    (runDepictsMain w s2 (runDepictsMain w s1 L0).ledger).writes = [] ∧
    (runDepictsMain w s2 (runDepictsMain w s1 L0).ledger).review = [] ∧
    (∀ c ∈ w.subcats rootCategory, c ∈ (runDepictsMain w s1 L0).ledger.families) := by
  have hFsrc : ∀ (acc : RunOut ItemWriteCall) (c : String),
      (processFamilyCategory (processTaxonSrc w s1) w acc c).ledger.families
        = acc.ledger.families := by
    intro acc c
    unfold processFamilyCategory
    exact genusLoop_families _ (processTaxonSrc_families w s1) w _ _
  have hFdep : ∀ (acc : RunOut MediaWriteCall) (c : String),
      (processFamilyCategory (processTaxonDepicts w s1) w acc c).ledger.families
        = acc.ledger.families := by
    intro acc c
    unfold processFamilyCategory
    exact genusLoop_families _ (processTaxonDepicts_families w s1) w _ _
  have hcovS : ∀ c ∈ w.subcats rootCategory,
      c ∈ (runSrcMain w s1 L0).ledger.families := by
    intro c hc
    exact mainLoop_covers _ hFsrc _ _ c hc
  have hcovD : ∀ c ∈ w.subcats rootCategory,
      c ∈ (runDepictsMain w s1 L0).ledger.families := by
    intro c hc
    exact mainLoop_covers _ hFdep _ _ c hc
  have hskipS : runSrcMain w s2 (runSrcMain w s1 L0).ledger
      = { writes := [], review := [],
          ledger := (runSrcMain w s1 L0).ledger } :=
    mainLoop_skip _ _ _ (fun c hc => hcovS c hc)
  have hskipD : runDepictsMain w s2 (runDepictsMain w s1 L0).ledger
      = { writes := [], review := [],
          ledger := (runDepictsMain w s1 L0).ledger } :=
    mainLoop_skip _ _ _ (fun c hc => hcovD c hc)
  refine ⟨?_, ?_, hcovS, ?_, ?_, hcovD⟩
  · rw [hskipS]
  · rw [hskipS]
  · rw [hskipD]
  · rw [hskipD]

/-- Witness for C4: on the concrete world, the single family category is in
the families ledger after the first run. -/
theorem claim_C4_idempotent_resume_witness :
    "Rosaceae" ∈ (runSrcMain worldEx "a" emptyLedger).ledger.families :=
  (claim_C4_idempotent_resume worldEx "a" "b" emptyLedger).2.2.1 "Rosaceae"
    (by decide)

theorem add_depicts_statements_review (w : World) (s item : String) :
    ∀ (files : List String) (acc : RunOut MediaWriteCall),
      (add_depicts_statements w s item files acc).review = acc.review := by
  intro files
  induction files with
  | nil =>
    intro acc
    rfl
  | cons f rest ih =>
    intro acc
    rw [add_depicts_statements, ih]
    split
    · rfl
    · split
      · rfl
      · dsimp only
        split <;> rfl

/-- Counterexample to claim C5 as stated: in the depicts variant a leaf
category with exactly three files is auto-processed (three depicts writes
are issued) and nothing is routed to the review sink. -/
theorem claim_C5_review_threshold_counterexample :
    (worldEx.filesIn "Rosa - botanical illustrations").length = 3 ∧
    (runDepictsMain worldEx "s" emptyLedger).review = [] ∧
    (runDepictsMain worldEx "s" emptyLedger).writes.length = 3 := by
  refine ⟨rfl, ?_, ?_⟩ <;> decide

/-- Claim C5 as amended: the review threshold holds in the item-claims
variant — a leaf category whose file list has three or more entries is
routed to the review sink with no write, and one with exactly one or two
entries is auto-processed (its reconciliation write, when any, is appended
and nothing is reviewed) — while the depicts variant never routes anything
to review. -/
theorem claim_C5_review_threshold (w : World) (snippet : String)
    (acc : RunOut ItemWriteCall) (taxon name item : String)
    (h1 : extractSpeciesName taxon = some name)
    (h2 : name ∉ acc.ledger.species)
    (h3 : w.qidOf name = some item) :
    ((w.filesIn taxon).length ≥ 3 →
      (processTaxonSrc w snippet acc taxon).review
        = acc.review ++ [(taxon, w.filesIn taxon)] ∧
      (processTaxonSrc w snippet acc taxon).writes = acc.writes) ∧
    (((w.filesIn taxon).length = 1 ∨ (w.filesIn taxon).length = 2) →
      (processTaxonSrc w snippet acc taxon).review = acc.review ∧
      (processTaxonSrc w snippet acc taxon).writes
        = acc.writes ++
          (add_depicts_or_illustration_statements w.lastrev
            (w.existingClaims item "P18") (w.existingClaims item "P13162")
            item (w.filesIn taxon) snippet).write.toList) ∧
    (∀ (wD : World) (sD : String) (accD : RunOut MediaWriteCall) (tD : String),
      (processTaxonDepicts wD sD accD tD).review = accD.review) := by
  refine ⟨?_, ?_, ?_⟩
  · intro hn
    have hcond1 : ¬((w.filesIn taxon).length = 1 ∨ (w.filesIn taxon).length = 2) := by
      omega
    constructor <;>
      simp [processTaxonSrc, h1, h2, h3, hcond1, hn]
  · intro hn
    cases hw : (add_depicts_or_illustration_statements w.lastrev
        (w.existingClaims item "P18") (w.existingClaims item "P13162")
        item (w.filesIn taxon) snippet).write with
    | none =>
      constructor <;> simp [processTaxonSrc, h1, h2, h3, hn, hw]
    | some wc =>
      constructor <;> simp [processTaxonSrc, h1, h2, h3, hn, hw]
  · intro wD sD accD tD
    unfold processTaxonDepicts
    split
    · rfl
    · split
      · rfl
      · split
        · rfl
        · dsimp only
          rw [add_depicts_statements_review]

/-- Witness for C5 (amended) at the concrete three-file category of the
item-claims variant. -/
theorem claim_C5_review_threshold_witness :
    (processTaxonSrc worldEx "s" emptyOutItem "Rosa - botanical illustrations").review
      = emptyOutItem.review ++ [("Rosa - botanical illustrations",
          worldEx.filesIn "Rosa - botanical illustrations")] ∧
    (processTaxonSrc worldEx "s" emptyOutItem "Rosa - botanical illustrations").writes
      = emptyOutItem.writes :=
  (claim_C5_review_threshold worldEx "s" emptyOutItem
    "Rosa - botanical illustrations" "Rosa" "Q123"
    (by decide) (by decide) (by decide)).1 (by decide)

/-- Counterexample to claim C8 as stated: a corrupted or unreadable ledger
file does not load as the empty set; the error propagates out of
`load_processed_entities` uncaught. -/
theorem claim_C8_ledger_load_counterexample :
    load_processed_entities EntityKind.species
        (LedgerRead.readError "yaml.scanner.ScannerError")
      = Except.error "yaml.scanner.ScannerError" ∧
    load_processed_entities EntityKind.species
        (LedgerRead.readError "yaml.scanner.ScannerError") ≠ Except.ok [] :=
  ⟨rfl, fun h => Except.noConfusion h⟩

/-- Claim C8 as amended: for every entity kind, a missing backing file and
an empty (`None`) payload load as the empty set, a parsed list loads as its
set of entries, and a read or YAML-parse failure propagates as a raised
exception (no caller catches it), instead of loading as the empty set. -/
theorem claim_C8_ledger_load_robustness (k : EntityKind) (e : String)
    (l : List String) :
    load_processed_entities k LedgerRead.missingFile = Except.ok [] ∧
    load_processed_entities k (LedgerRead.content none) = Except.ok [] ∧
    load_processed_entities k (LedgerRead.content (some l)) = Except.ok l.dedup ∧
    load_processed_entities k (LedgerRead.readError e) = Except.error e :=
  ⟨rfl, rfl, rfl, rfl⟩

/-- Counterexample to claim C9 as stated: an error raised by the remote
lookup is not turned into a no-match result; `fetch_wikidata_item`
propagates it. -/
theorem claim_C9_taxon_resolver_counterexample :
    fetch_wikidata_item (Except.error "requests.exceptions.ConnectionError")
      = Except.error "requests.exceptions.ConnectionError" ∧
    fetch_wikidata_item (Except.error "requests.exceptions.ConnectionError")
      ≠ Except.ok none :=
  ⟨rfl, fun h => Except.noConfusion h⟩

/-- Claim C9 as amended: an exception raised by the HTTP request or JSON
decoding propagates uncaught out of the resolver (it is not retried and not
turned into a no-match); a decoded response yields the first entry of its
`search` list, or no match when that list is empty (an API error body
without a `search` key decodes to the empty list). -/
theorem claim_C9_taxon_resolver_error_policy (e : String) (ids : List String)
    (x : String) (xs : List String) :
    fetch_wikidata_item (Except.error e) = Except.error e ∧
    fetch_wikidata_item (Except.ok []) = Except.ok none ∧
    fetch_wikidata_item (Except.ok (x :: xs)) = Except.ok (some x) ∧
    fetch_wikidata_item (Except.ok ids) = Except.ok ids.head? :=
  ⟨rfl, rfl, rfl, rfl⟩

end IllustrationBot
